import Mathlib

/-!
# TcpTransportFactory (Hot Rod C++ client): routing, pooling, topology reconciliation

A shallow embedding of `src/hotrod/impl/transport/tcp/TcpTransportFactory.cpp`.

The factory is a record of its member variables; every member function is a
function on that record.  The collaborators whose code is not part of the
translation unit (`ConnectionPool`, `TopologyInfo`, the balancing strategy,
`TransportObjectFactory`, `InetSocketAddress`, `ServerNameId`) are handled as follows:

* the address type, the identity type and the transport type are type parameters
  (`A`, `I`, `T`); `A` carries the strict total order used by `std::sort`;
* every call the factory makes on a collaborator is appended to a `trace`, together
  with the recursion depth of the factory mutex at the moment of the call;
* the answer of a collaborator that returns a value or may throw is read from an
  environment `Env`, which may depend on the whole trace so far.
-/

namespace HotRod

/-- A `std::vector<char>` (cache names, keys), one number per char. -/
abbrev CharVector := List Nat

deriving instance DecidableEq for Except

/-- An exception leaving a member function: either thrown by a `throw` statement of
the factory itself, or thrown by a collaborator and not caught. -/
inductive Thrown where
  | raised (what : String)
  | propagated (what : String)
  deriving DecidableEq, Repr

/-- The calls the factory makes on its collaborators.  A call that returns a value
or may throw `Exception` carries its outcome. -/
inductive Call (A I T : Type) where
  /-- The call `balancer.reset(...)`, line 41 / 45. -/
  | newBalancer
  /-- The call `new TopologyInfo(defaultTopologyId, initialServers, configuration)`. -/
  | newTopologyInfo (defaultTopologyId : Int) (servers : List A)
  /-- The call `transportFactory.reset(new TransportObjectFactory(codec, *this))`. -/
  | newTransportObjectFactory
  /-- The call `connectionPool.reset(new ConnectionPool(...))`. -/
  | newConnectionPool
  | preparePool (server : A)
  | borrowObject (server : A) (outcome : Except String T)
  | returnObject (server : A) (transport : T)
  | invalidateObject (server : A) (transport : T)
  | addObject (server : A)
  | clear (server : A)
  /-- The call `transportFactory->ping(transport)`. -/
  | ping (transport : T) (outcome : Except String Unit)
  /-- The call `balancer->nextServer()`. -/
  | nextServer (outcome : Except String I)
  /-- The call `balancer->setServers(names)`. -/
  | setServers (names : List I)
  /-- The call `topologyInfo->getHashAwareServer(key, cacheName)`. -/
  | getHashAwareServer (key cacheName : CharVector) (answer : A)
  /-- The call `topologyInfo->updateServers(servers)`. -/
  | topologyUpdateServers (servers : List A)
  /-- The call `topologyInfo->updateTopology(servers2Hash, numKeyOwners, hashFunctionVersion,
  hashSpace, cacheName)`. -/
  | updateTopologyLegacy (servers2Hash : List (A × List Int)) (numKeyOwners : Int)
      (hashFunctionVersion : Nat) (hashSpace : Int) (cacheName : CharVector)
  /-- The call `topologyInfo->updateTopology(segmentOwners, numSegment, hashFunctionVersion,
  cacheName, topologyId)`. -/
  | updateTopology (segmentOwners : List (List A)) (numSegment : Nat)
      (hashFunctionVersion : Nat) (cacheName : CharVector) (topologyId : Int)
  /-- The call `topologyInfo->consistentHashErase(cacheName)`. -/
  | consistentHashErase (cacheName : CharVector)
  deriving DecidableEq

/-- One entry of the trace: a call and the number of times the (recursive) factory
mutex was held by the calling thread when the call was made. -/
structure Event (A I T : Type) where
  lock : Nat
  call : Call A I T
  deriving DecidableEq

/-- The collaborators' answers.  `nameId` is the conversion `(ServerNameId)address`,
`isEmpty` is `InetSocketAddress::isEmpty`; the other fields give the outcome of a
call as a function of the trace before the call and of the arguments. -/
structure Env (A I T : Type) where
  nameId : A → I
  isEmpty : A → Bool
  borrowObject : List (Event A I T) → A → Except String T
  ping : List (Event A I T) → T → Except String Unit
  nextServer : List (Event A I T) → Except String I
  getHashAwareServer : List (Event A I T) → CharVector → CharVector → A
  isValid : List (Event A I T) → T → Bool
  getServerAddress : T → A

/-- The member variables of `TcpTransportFactory` that the modelled functions touch,
with the part of the state of `topologyInfo` and `balancer` that the code reads back. -/
structure TcpTransportFactory (A I T : Type) where
  /-- The member `lock`: how many times the calling thread holds the recursive mutex. -/
  lock : Nat
  topologyAge : Int
  initialServers : List A
  /-- The member `std::map<ServerNameId,InetSocketAddress> serverNameMap` as an
  association list; the code never iterates over it, so the order of the entries is
  not observed. -/
  serverNameMap : List (I × A)
  /-- Modelled from the spec: the server list of `TopologyInfo` ("the current known
  server set"), whose class is not part of the translation unit.  It is set by the
  constructor and by `TopologyInfo::updateServers` and returned by `getServers`. -/
  topologyInfo : List A
  /-- Modelled from the spec: the server list of the balancing strategy, whose class is
  not part of the translation unit: the list last given to `setServers`. -/
  balancer : List I
  /-- The calls made on the collaborators so far, oldest first. -/
  trace : List (Event A I T)

section Model

variable {A I T : Type} [LinearOrder A] [DecidableEq I]

/-! ## `ScopedLock<Mutex>` and the trace -/

/-- Constructor of `ScopedLock<Mutex> l(lock)`. -/
def acquire (f : TcpTransportFactory A I T) : TcpTransportFactory A I T :=
  { f with lock := f.lock + 1 }

/-- Destructor of `ScopedLock<Mutex>`, run when its scope is left. -/
def release (f : TcpTransportFactory A I T) : TcpTransportFactory A I T :=
  { f with lock := f.lock - 1 }

/-- Record a call on a collaborator. -/
def emit (c : Call A I T) (f : TcpTransportFactory A I T) : TcpTransportFactory A I T :=
  { f with trace := f.trace ++ [⟨f.lock, c⟩] }

/-! ## `std::map`, `std::sort`, `std::set_difference` -/

/-- The function `std::map::find`: the mapped value, `none` for `end()`. -/
def find (m : List (I × A)) (k : I) : Option A :=
  m.lookup k

/-- The function `std::map::insert`: adds the pair unless the key is present. -/
def mapInsert (m : List (I × A)) (k : I) (v : A) : List (I × A) :=
  match find m k with
  | some _ => m
  | none => m ++ [(k, v)]

/-- The keys of the map. -/
def keys (m : List (I × A)) : List I :=
  m.map Prod.fst

/-- The function `std::sort` with `operator<`: the ascending arrangement. -/
def sort (l : List A) : List A :=
  l.insertionSort (· ≤ ·)

/-- The loop of `std::set_difference(first1, last1, first2, last2, out)`, with the
number of remaining iterations bounded by `fuel`. -/
def set_differenceAux : Nat → List A → List A → List A
  | 0, _, _ => []
  | _ + 1, [], _ => []
  | _ + 1, x :: xs, [] => x :: xs
  | n + 1, x :: xs, y :: ys =>
      if x < y then x :: set_differenceAux n xs (y :: ys)
      else if y < x then set_differenceAux n (x :: xs) ys
      else set_differenceAux n xs ys

/-- The function `std::set_difference` on two sorted ranges. -/
def set_difference (xs ys : List A) : List A :=
  set_differenceAux (xs.length + ys.length) xs ys

/-! ## Member functions -/

/-- Lines 54-63 and 231-240: for every address in turn, add `identity ↦ address` to
the map if the identity is not a key yet, and push the identity to the name list. -/
def registerNames (env : Env A I T) :
    List A → List (I × A) → List I → List (I × A) × List I
  | [], m, names => (m, names)
  | s :: rest, m, names =>
      let tmp := env.nameId s
      let m := if (find m tmp).isNone then mapInsert m tmp s else m
      registerNames env rest m (names ++ [tmp])

/-- The member function `TcpTransportFactory::getConnectionPool` (lines 191-195). -/
def getConnectionPool (f : TcpTransportFactory A I T) : TcpTransportFactory A I T :=
  release (acquire f)

/-- The member function `TcpTransportFactory::borrowTransportFromPool` (lines 184-189). -/
def borrowTransportFromPool (env : Env A I T) (f : TcpTransportFactory A I T) (server : A) :
    Except Thrown T × TcpTransportFactory A I T :=
  let f := getConnectionPool f
  let r := env.borrowObject f.trace server
  let f := emit (.borrowObject server r) f
  match r with
  | .ok t => (.ok t, f)
  | .error e => (.error (.propagated e), f)

/-- The member function `TcpTransportFactory::getTransport(cacheName)` (lines 69-80). -/
def getTransport (env : Env A I T) (f : TcpTransportFactory A I T) (_cacheName : CharVector) :
    Except Thrown T × TcpTransportFactory A I T :=
  let f := acquire f
  let r := env.nextServer f.trace
  let f := emit (.nextServer r) f
  match r with
  | .error e => (.error (.propagated e), release f)
  | .ok id =>
    match find f.serverNameMap id with
    | none => (.error (.raised "Server not found!"), release f)
    | some server =>
      let f := release f
      borrowTransportFromPool env f server

/-- The member function `TcpTransportFactory::getTransport(key, cacheName)` (lines 82-94). -/
def getTransportKey (env : Env A I T) (f : TcpTransportFactory A I T)
    (key cacheName : CharVector) : Except Thrown T × TcpTransportFactory A I T :=
  let f := acquire f
  let server := env.getHashAwareServer f.trace key cacheName
  let f := emit (.getHashAwareServer key cacheName server) f
  if env.isEmpty server then
    let (r, f) := getTransport env f cacheName
    (r, release f)
  else
    let (r, f) := borrowTransportFromPool env f server
    (r, release f)

/-- The member function `TcpTransportFactory::releaseTransport` (lines 96-104). -/
def releaseTransport (env : Env A I T) (f : TcpTransportFactory A I T) (transport : T) :
    TcpTransportFactory A I T :=
  let f := getConnectionPool f
  if !env.isValid f.trace transport then
    emit (.invalidateObject (env.getServerAddress transport) transport) f
  else
    emit (.returnObject (env.getServerAddress transport) transport) f

/-- The member function `TcpTransportFactory::createAndPreparePool` (lines 146-155). -/
def createAndPreparePool (f : TcpTransportFactory A I T) : TcpTransportFactory A I T :=
  let f := emit .newConnectionPool f
  let servers := f.topologyInfo
  servers.foldl (fun f i => emit (.preparePool i) f) f

/-- The `try` block of `pingServers` (lines 164-166). -/
def pingTry (env : Env A I T) (f : TcpTransportFactory A I T) (s : A) :
    Except String Unit × TcpTransportFactory A I T :=
  let r := env.borrowObject f.trace s
  let f := emit (.borrowObject s r) f
  match r with
  | .error e => (.error e, f)
  | .ok transport =>
    let p := env.ping f.trace transport
    let f := emit (.ping transport p) f
    match p with
    | .error e => (.error e, f)
    | .ok _ => (.ok (), emit (.returnObject s transport) f)

/-- One iteration of the loop of `pingServers` (lines 160-173): the `try` block and
its handler `catch (const Exception &e)`, which only traces. -/
def pingIteration (env : Env A I T) (f : TcpTransportFactory A I T) (s : A) :
    Except Thrown Unit × TcpTransportFactory A I T :=
  match pingTry env f s with
  | (.ok u, f) => (.ok u, f)
  | (.error _, f) => (.ok (), f)

/-- The loop of `pingServers` over the remaining servers. -/
def pingLoop (env : Env A I T) :
    List A → TcpTransportFactory A I T → Except Thrown Unit × TcpTransportFactory A I T
  | [], f => (.ok (), f)
  | s :: rest, f =>
    match pingIteration env f s with
    | (.ok _, f) => pingLoop env rest f
    | (.error e, f) => (.error e, f)

/-- The member function `TcpTransportFactory::pingServers` (lines 157-175). -/
def pingServers (env : Env A I T) (f : TcpTransportFactory A I T) :
    Except Thrown Unit × TcpTransportFactory A I T :=
  let s := f.topologyInfo
  pingLoop env s f

/-- The member function `TcpTransportFactory::start` (lines 27-67).  `configuredServers`
is `configuration.getServersConfiguration()`, each entry already turned into an address. -/
def start (env : Env A I T) (f : TcpTransportFactory A I T) (configuredServers : List A)
    (defaultTopologyId : Int) : Except Thrown Unit × TcpTransportFactory A I T :=
  let f := acquire f
  let f := { f with topologyAge := 0 }
  let f := { f with initialServers := f.initialServers ++ configuredServers }
  let f := emit .newBalancer f
  let f := emit (.newTopologyInfo defaultTopologyId f.initialServers)
    { f with topologyInfo := f.initialServers }
  let f := emit .newTransportObjectFactory f
  let f := createAndPreparePool f
  let (m, serverNames) := registerNames env f.initialServers f.serverNameMap []
  let f := { f with serverNameMap := m }
  let f := emit (.setServers serverNames) { f with balancer := serverNames }
  let (r, f) := pingServers env f
  (r, release f)

/-- The member function `TcpTransportFactory::updateServers` (lines 197-253).  The second
component is the caller's vector `newServers` on return (it is sorted in place). -/
def updateServers (env : Env A I T) (f : TcpTransportFactory A I T) (newServers : List A) :
    TcpTransportFactory A I T × List A :=
  let f := acquire f
  let topoServers := f.topologyInfo
  let newServers := sort newServers
  let topoServers := sort topoServers
  let addedServers := set_difference newServers topoServers
  let newServers := sort newServers
  let topoServers := sort topoServers
  let failedServers := set_difference topoServers newServers
  if failedServers.isEmpty && newServers.isEmpty then
    (release f, newServers)
  else
    let f := addedServers.foldl (fun f it => emit (.addObject it) f) f
    let (m, newServerNames) := registerNames env newServers f.serverNameMap []
    let f := { f with serverNameMap := m }
    let f := emit (.topologyUpdateServers newServers) { f with topologyInfo := newServers }
    let f := emit (.setServers newServerNames) { f with balancer := newServerNames }
    let f := failedServers.foldl (fun f it => emit (.clear it) f) f
    let f := emit (.topologyUpdateServers newServers) { f with topologyInfo := newServers }
    (release f, newServers)

/-- The member function `TcpTransportFactory::updateHashFunction`, legacy form (lines 255-260). -/
def updateHashFunctionLegacy (f : TcpTransportFactory A I T)
    (servers2Hash : List (A × List Int)) (numKeyOwners : Int) (hashFunctionVersion : Nat)
    (hashSpace : Int) (cacheName : CharVector) : TcpTransportFactory A I T :=
  let f := acquire f
  let f := emit
    (.updateTopologyLegacy servers2Hash numKeyOwners hashFunctionVersion hashSpace cacheName) f
  release f

/-- The member function `TcpTransportFactory::updateHashFunction`, segment form (lines 262-270). -/
def updateHashFunction (f : TcpTransportFactory A I T)
    (segmentOwners : List (List A)) (numSegment : Nat) (hashFunctionVersion : Nat)
    (cacheName : CharVector) (topologyId : Int) : TcpTransportFactory A I T :=
  let f := acquire f
  let f := emit
    (.updateTopology segmentOwners numSegment hashFunctionVersion cacheName topologyId) f
  release f

/-- The member function `TcpTransportFactory::clearHashFunction` (lines 273-275). -/
def clearHashFunction (f : TcpTransportFactory A I T) (cacheName : CharVector) :
    TcpTransportFactory A I T :=
  emit (.consistentHashErase cacheName) f

/-! ## Reading a trace -/

/-- The calls made between state `f` and a later state `g`, oldest first. -/
def newCalls (f g : TcpTransportFactory A I T) : List (Call A I T) :=
  (g.trace.drop f.trace.length).map Event.call

/-- The events logged between state `f` and a later state `g`, oldest first. -/
def newEvents (f g : TcpTransportFactory A I T) : List (Event A I T) :=
  g.trace.drop f.trace.length

/-- The outcome of `borrowObject` as seen by the caller of the factory. -/
def lift (r : Except String T) : Except Thrown T :=
  match r with
  | .ok t => .ok t
  | .error e => .error (.propagated e)

/-- The servers for which `connectionPool->addObject` is called, in call order. -/
def addObjectCalls (cs : List (Call A I T)) : List A :=
  cs.filterMap fun c => match c with
    | .addObject s => some s
    | _ => none

/-- The servers for which `connectionPool->clear(server)` is called, in call order. -/
def clearCalls (cs : List (Call A I T)) : List A :=
  cs.filterMap fun c => match c with
    | .clear s => some s
    | _ => none

/-- The servers for which `connectionPool->borrowObject` is called, in call order. -/
def borrowAttempts (cs : List (Call A I T)) : List A :=
  cs.filterMap fun c => match c with
    | .borrowObject s _ => some s
    | _ => none

/-- The transports handed out by successful `borrowObject` calls, in call order. -/
def borrowed (cs : List (Call A I T)) : List T :=
  cs.filterMap fun c => match c with
    | .borrowObject _ (.ok t) => some t
    | _ => none

/-- The transports on which `transportFactory->ping` is called, in call order. -/
def pinged (cs : List (Call A I T)) : List T :=
  cs.filterMap fun c => match c with
    | .ping t _ => some t
    | _ => none

/-- Modelled from the spec: the pool's check-out accounting, which lives in
`ConnectionPool` ("checked out" lasts "until return or invalidate").  A successful
`borrowObject` checks its transport out; `returnObject` and `invalidateObject` end the
check-out of theirs. -/
def checkOutStep [DecidableEq T] (out : List T) (c : Call A I T) : List T :=
  match c with
  | .borrowObject _ (.ok t) => out ++ [t]
  | .returnObject _ t => out.erase t
  | .invalidateObject _ t => out.erase t
  | _ => out

/-- Modelled from the spec: the transports still checked out after a run of calls on a
pool that had none checked out (see `checkOutStep`). -/
def checkedOut [DecidableEq T] (cs : List (Call A I T)) : List T :=
  cs.foldl checkOutStep []

/-- The events `start` logs before it pings: the four constructions, one `preparePool`
per server and the `setServers` call, all with the mutex held once more. -/
def startPrefix (env : Env A I T) (f : TcpTransportFactory A I T) (configuredServers : List A)
    (defaultTopologyId : Int) : List (Event A I T) :=
  [⟨f.lock + 1, .newBalancer⟩,
   ⟨f.lock + 1, .newTopologyInfo defaultTopologyId (f.initialServers ++ configuredServers)⟩,
   ⟨f.lock + 1, .newTransportObjectFactory⟩,
   ⟨f.lock + 1, .newConnectionPool⟩]
  ++ (f.initialServers ++ configuredServers).map (fun s => ⟨f.lock + 1, .preparePool s⟩)
  ++ [⟨f.lock + 1, .setServers ((f.initialServers ++ configuredServers).map env.nameId)⟩]

/-- The identity-map invariant: every identity last given to the balancer is a key. -/
def BalancerKnown (f : TcpTransportFactory A I T) : Prop :=
  ∀ id ∈ f.balancer, id ∈ keys f.serverNameMap

/-- A factory as constructed, before `start`: all containers empty, mutex free. -/
def fresh : TcpTransportFactory A I T :=
  { lock := 0, topologyAge := 0, initialServers := [], serverNameMap := [],
    topologyInfo := [], balancer := [], trace := [] }

end Model

/-! ## Worked instances -/

/-- A cluster of numbered servers.  The identity of an address is its number, address
`0` is the empty address, a borrow from server `s` yields transport `100 + s`, every
ping succeeds, the balancer answers `1` and no cache is hash-aware. -/
def healthy : Env Nat Nat Nat :=
  { nameId := fun a => a
    isEmpty := fun a => a == 0
    borrowObject := fun _ s => .ok (100 + s)
    ping := fun _ _ => .ok ()
    nextServer := fun _ => .ok 1
    getHashAwareServer := fun _ _ _ => 0
    isValid := fun _ _ => true
    getServerAddress := fun t => t - 100 }

/-- The cluster `healthy` with two faults: server `2` refuses connections and the ping
sent over the transport of server `3` throws. -/
def flaky : Env Nat Nat Nat :=
  { healthy with
    borrowObject := fun _ s => if s = 2 then .error "connection refused" else .ok (100 + s)
    ping := fun _ t => if t = 103 then .error "timeout" else .ok () }

/-- The cluster `healthy` where every cache is hash-aware and every key is owned by
server `2`. -/
def hashAware : Env Nat Nat Nat :=
  { healthy with getHashAwareServer := fun _ _ _ => 2 }

/-- The factory after `start` on a factory as constructed, with default topology id 0. -/
def started {A I T : Type} [DecidableEq I] (env : Env A I T)
    (configuredServers : List A) : TcpTransportFactory A I T :=
  (start env fresh configuredServers 0).2

/-! # Properties -/

section Basics

variable {A I T : Type}

@[simp] theorem acquire_trace (f : TcpTransportFactory A I T) : (acquire f).trace = f.trace := rfl
@[simp] theorem release_trace (f : TcpTransportFactory A I T) : (release f).trace = f.trace := rfl
@[simp] theorem acquire_lock (f : TcpTransportFactory A I T) : (acquire f).lock = f.lock + 1 := rfl
@[simp] theorem release_lock (f : TcpTransportFactory A I T) : (release f).lock = f.lock - 1 := rfl
@[simp] theorem emit_lock (c : Call A I T) (f : TcpTransportFactory A I T) :
    (emit c f).lock = f.lock := rfl
@[simp] theorem emit_trace (c : Call A I T) (f : TcpTransportFactory A I T) :
    (emit c f).trace = f.trace ++ [⟨f.lock, c⟩] := rfl
@[simp] theorem acquire_map (f : TcpTransportFactory A I T) :
    (acquire f).serverNameMap = f.serverNameMap := rfl
@[simp] theorem release_map (f : TcpTransportFactory A I T) :
    (release f).serverNameMap = f.serverNameMap := rfl
@[simp] theorem emit_map (c : Call A I T) (f : TcpTransportFactory A I T) :
    (emit c f).serverNameMap = f.serverNameMap := rfl
@[simp] theorem acquire_topologyInfo (f : TcpTransportFactory A I T) :
    (acquire f).topologyInfo = f.topologyInfo := rfl
@[simp] theorem release_topologyInfo (f : TcpTransportFactory A I T) :
    (release f).topologyInfo = f.topologyInfo := rfl
@[simp] theorem emit_topologyInfo (c : Call A I T) (f : TcpTransportFactory A I T) :
    (emit c f).topologyInfo = f.topologyInfo := rfl
@[simp] theorem acquire_balancer (f : TcpTransportFactory A I T) :
    (acquire f).balancer = f.balancer := rfl
@[simp] theorem release_balancer (f : TcpTransportFactory A I T) :
    (release f).balancer = f.balancer := rfl
@[simp] theorem emit_balancer (c : Call A I T) (f : TcpTransportFactory A I T) :
    (emit c f).balancer = f.balancer := rfl
@[simp] theorem release_acquire (f : TcpTransportFactory A I T) : release (acquire f) = f := rfl

theorem newEvents_of_append (f g : TcpTransportFactory A I T) (d : List (Event A I T))
    (h : g.trace = f.trace ++ d) : newEvents f g = d := by
  simp [newEvents, h]

theorem newCalls_of_append (f g : TcpTransportFactory A I T) (d : List (Event A I T))
    (h : g.trace = f.trace ++ d) : newCalls f g = d.map Event.call := by
  simp [newCalls, h]

/-! ## The identity map -/

theorem find_eq_none_iff [DecidableEq I] (m : List (I × A)) (k : I) : find m k = none ↔ k ∉ keys m := by
  induction m with
  | nil => simp [find, keys]
  | cons p m ih =>
    obtain ⟨k', v⟩ := p
    by_cases hk : k = k'
    · subst hk; simp [find, keys, List.lookup]
    · have hb : (k == k') = false := by simpa using hk
      simp only [find, keys, List.lookup, hb, List.map_cons, List.mem_cons, hk, false_or] at ih ⊢
      exact ih

theorem find_isSome_iff [DecidableEq I] (m : List (I × A)) (k : I) : (find m k).isSome ↔ k ∈ keys m := by
  rw [← not_iff_not, ← find_eq_none_iff]
  cases find m k <;> simp

/-! ## `getTransport` -/

theorem getTransport_of_error [DecidableEq I] (env : Env A I T) (f : TcpTransportFactory A I T)
    (cn : CharVector) (e : String) (h : env.nextServer f.trace = .error e) :
    getTransport env f cn
      = (.error (.propagated e), release (emit (.nextServer (.error e)) (acquire f))) := by
  simp [getTransport, h]

theorem getTransport_of_none [DecidableEq I] (env : Env A I T) (f : TcpTransportFactory A I T)
    (cn : CharVector) (id : I) (h : env.nextServer f.trace = .ok id)
    (hn : find f.serverNameMap id = none) :
    getTransport env f cn
      = (.error (.raised "Server not found!"),
          release (emit (.nextServer (.ok id)) (acquire f))) := by
  simp [getTransport, h, hn]

theorem getTransport_of_some [DecidableEq I] (env : Env A I T) (f : TcpTransportFactory A I T)
    (cn : CharVector) (id : I) (a : A) (h : env.nextServer f.trace = .ok id)
    (hs : find f.serverNameMap id = some a) :
    getTransport env f cn
      = borrowTransportFromPool env (release (emit (.nextServer (.ok id)) (acquire f))) a := by
  simp [getTransport, h, hs]

theorem borrowTransportFromPool_fst (env : Env A I T) (f : TcpTransportFactory A I T) (a : A) :
    (borrowTransportFromPool env f a).1 = lift (env.borrowObject f.trace a) := by
  unfold borrowTransportFromPool lift
  simp only [getConnectionPool, release_acquire]
  cases env.borrowObject f.trace a <;> rfl

theorem borrowTransportFromPool_snd (env : Env A I T) (f : TcpTransportFactory A I T) (a : A) :
    (borrowTransportFromPool env f a).2
      = emit (.borrowObject a (env.borrowObject f.trace a)) f := by
  unfold borrowTransportFromPool
  simp only [getConnectionPool, release_acquire]
  cases env.borrowObject f.trace a <;> rfl

end Basics

section Sorting

variable {A : Type} [LinearOrder A]

theorem sort_perm (l : List A) : (sort l).Perm l := List.perm_insertionSort _ l

theorem sort_sorted (l : List A) : (sort l).Sorted (· ≤ ·) := List.sorted_insertionSort _ l

theorem sort_sort (l : List A) : sort (sort l) = sort l := (sort_sorted l).insertionSort_eq

theorem sort_eq_nil (l : List A) : sort l = [] ↔ l = [] := by
  constructor
  · intro h
    have hp := sort_perm l
    rw [h] at hp
    exact (List.Perm.nil_eq hp).symm
  · intro h
    subst h
    rfl

theorem count_sort (a : A) (l : List A) : (sort l).count a = l.count a :=
  (sort_perm l).count_eq a

/-- More fuel than the two lengths together does not change the result. -/
theorem set_differenceAux_fuel (n : Nat) : ∀ (m : Nat) (xs ys : List A),
    xs.length + ys.length ≤ n → xs.length + ys.length ≤ m →
    set_differenceAux n xs ys = set_differenceAux m xs ys := by
  induction n with
  | zero =>
    intro m xs ys h _
    have hx : xs = [] := by
      cases xs with
      | nil => rfl
      | cons x xs => simp at h
    subst hx
    cases m <;> simp [set_differenceAux]
  | succ n ih =>
    intro m xs ys hn hm
    cases xs with
    | nil => cases m <;> simp [set_differenceAux]
    | cons x xs =>
      cases m with
      | zero => simp at hm
      | succ m =>
        cases ys with
        | nil => simp [set_differenceAux]
        | cons y ys =>
          simp only [List.length_cons] at hn hm
          simp only [set_differenceAux]
          rw [ih m xs (y :: ys) (by simp only [List.length_cons]; omega)
                (by simp only [List.length_cons]; omega),
              ih m (x :: xs) ys (by simp only [List.length_cons]; omega)
                (by simp only [List.length_cons]; omega),
              ih m xs ys (by omega) (by omega)]

theorem set_difference_nil_left (ys : List A) : set_difference ([] : List A) ys = [] := by
  cases ys <;> simp [set_difference, set_differenceAux]

theorem set_difference_nil_right (xs : List A) : set_difference xs [] = xs := by
  cases xs <;> simp [set_difference, set_differenceAux]

/-- The loop body of `std::set_difference`, free of fuel. -/
theorem set_difference_cons_cons (x : A) (xs : List A) (y : A) (ys : List A) :
    set_difference (x :: xs) (y :: ys)
      = if x < y then x :: set_difference xs (y :: ys)
        else if y < x then set_difference (x :: xs) ys
        else set_difference xs ys := by
  show set_differenceAux ((xs.length + 1 + ys.length) + 1) (x :: xs) (y :: ys) = _
  simp only [set_differenceAux, set_difference]
  rw [set_differenceAux_fuel (xs.length + 1 + ys.length) (xs.length + (y :: ys).length) xs
        (y :: ys) (by simp only [List.length_cons]; omega) (le_refl _),
      set_differenceAux_fuel (xs.length + 1 + ys.length) ((x :: xs).length + ys.length)
        (x :: xs) ys (by simp only [List.length_cons]; omega) (le_refl _),
      set_differenceAux_fuel (xs.length + 1 + ys.length) (xs.length + ys.length) xs ys
        (by omega) (le_refl _)]

theorem count_set_difference (a : A) : ∀ (xs ys : List A),
    xs.Sorted (· ≤ ·) → ys.Sorted (· ≤ ·) →
    (set_difference xs ys).count a = xs.count a - ys.count a := by
  intro xs
  induction xs with
  | nil => intro ys _ _; simp [set_difference_nil_left]
  | cons x xs ihx =>
    intro ys
    induction ys with
    | nil => intro _ _; simp [set_difference_nil_right]
    | cons y ys ihy =>
      intro hx hy
      have hx' := List.sorted_cons.1 hx
      have hy' := List.sorted_cons.1 hy
      rw [set_difference_cons_cons]
      split_ifs with h1 h2
      · rw [List.count_cons, List.count_cons a x xs, ihx (y :: ys) hx'.2 hy]
        by_cases hax : x = a
        · subst hax
          have h0 : (y :: ys).count x = 0 := by
            rw [List.count_eq_zero]
            intro hm
            rcases List.mem_cons.1 hm with h | h
            · exact absurd h (ne_of_lt h1)
            · exact absurd (hy'.1 x h) (not_le.2 h1)
          simp [h0]
        · simp [hax]
      · rw [ihy hx hy'.2]
        by_cases hay : y = a
        · subst hay
          have h0 : (x :: xs).count y = 0 := by
            rw [List.count_eq_zero]
            intro hm
            rcases List.mem_cons.1 hm with h | h
            · exact absurd h (ne_of_lt h2)
            · exact absurd (hx'.1 y h) (not_le.2 h2)
          simp [h0]
        · simp [List.count_cons, hay]
      · have hxy : x = y := le_antisymm (not_lt.1 h2) (not_lt.1 h1)
        subst hxy
        rw [ihx ys hx'.2 hy'.2]
        simp only [List.count_cons]
        omega

theorem set_difference_self (l : List A) : set_difference l l = [] := by
  induction l with
  | nil => exact set_difference_nil_left _
  | cons x xs ih => rw [set_difference_cons_cons]; simp [ih]

end Sorting

section Registering

theorem foldl_emit {A I T : Type} (c : A → Call A I T) (l : List A) (f : TcpTransportFactory A I T) :
    l.foldl (fun f it => emit (c it) f) f
      = { f with trace := f.trace ++ l.map (fun it => ⟨f.lock, c it⟩) } := by
  induction l generalizing f with
  | nil => simp
  | cons a l ih =>
    rw [List.foldl_cons, ih]
    simp [emit]

variable {A I T : Type} [DecidableEq I]

theorem find_append (m₁ m₂ : List (I × A)) (k : I) :
    find (m₁ ++ m₂) k = (find m₁ k).or (find m₂ k) := by
  simp [find, List.lookup_append]

theorem find_mapInsert (m : List (I × A)) (k k' : I) (v : A) :
    find (mapInsert m k v) k'
      = (find m k').or (if k' = k then some v else none) := by
  unfold mapInsert
  cases h : find m k with
  | some a =>
    by_cases hk : k' = k
    · subst hk; simp [h]
    · simp [hk]
  | none =>
    simp only [find_append]
    congr 1
    by_cases hk : k' = k
    · subst hk; simp [find, List.lookup]
    · have hb : (k' == k) = false := by simpa using hk
      simp [find, List.lookup, hb, hk]

/-- The names pushed by the loop are the identities of the addresses, in order. -/
theorem registerNames_snd (env : Env A I T) (l : List A) (m : List (I × A)) (names : List I) :
    (registerNames env l m names).2 = names ++ l.map env.nameId := by
  induction l generalizing m names with
  | nil => simp [registerNames]
  | cons s rest ih => simp [registerNames, ih]

/-- An identity that is a key keeps its address through the loop. -/
theorem registerNames_find_of_some (env : Env A I T) (l : List A) (m : List (I × A))
    (names : List I) (k : I) (a : A) (h : find m k = some a) :
    find (registerNames env l m names).1 k = some a := by
  induction l generalizing m names with
  | nil => simpa [registerNames] using h
  | cons s rest ih =>
    simp only [registerNames]
    apply ih
    split
    · rw [find_mapInsert, h]; rfl
    · exact h

/-- Every identity of the list is a key after the loop. -/
theorem registerNames_mem_keys (env : Env A I T) (l : List A) (m : List (I × A))
    (names : List I) (s : A) (hs : s ∈ l) :
    env.nameId s ∈ keys (registerNames env l m names).1 := by
  induction l generalizing m names with
  | nil => cases hs
  | cons s' rest ih =>
    simp only [registerNames]
    rcases List.mem_cons.1 hs with h | h
    · subst h
      have hsome : ∃ a, find (if (find m (env.nameId s)).isNone
          then mapInsert m (env.nameId s) s else m) (env.nameId s) = some a := by
        cases hf : find m (env.nameId s) with
        | none => exact ⟨s, by simp [find_mapInsert, hf]⟩
        | some a => exact ⟨a, by simp [hf]⟩
      obtain ⟨a, ha⟩ := hsome
      have := registerNames_find_of_some env rest _ (names ++ [env.nameId s]) _ a ha
      rw [← find_isSome_iff, this]; rfl
    · exact ih _ _ h

end Registering

section Reconciling

variable {A I T : Type} [LinearOrder A] [DecidableEq I]

/-- The test of line 216, `failedServers.empty() && newServers.empty()`, holds exactly
when both the new list and the known list are empty. -/
theorem early_test_iff (old new : List A) :
    ((set_difference (sort old) (sort new)).isEmpty && (sort new).isEmpty) = true
      ↔ new = [] ∧ old = [] := by
  rw [Bool.and_eq_true, List.isEmpty_iff, List.isEmpty_iff, sort_eq_nil]
  constructor
  · rintro ⟨h1, h2⟩
    subst h2
    have : sort ([] : List A) = [] := rfl
    rw [this, set_difference_nil_right, sort_eq_nil] at h1
    exact ⟨rfl, h1⟩
  · rintro ⟨h1, h2⟩
    subst h1 h2
    exact ⟨rfl, rfl⟩

/-- The early return of line 217: nothing but the lock is touched. -/
theorem updateServers_early (env : Env A I T) (f : TcpTransportFactory A I T)
    (new : List A) (h : new = [] ∧ f.topologyInfo = []) :
    updateServers env f new = (f, []) := by
  obtain ⟨h1, h2⟩ := h
  subst h1
  have hs : sort ([] : List A) = [] := rfl
  simp [updateServers, h2, hs, set_difference_nil_left]

/-- The full run of `updateServers` past line 218. -/
theorem updateServers_run (env : Env A I T) (f : TcpTransportFactory A I T)
    (new : List A) (h : ¬ (new = [] ∧ f.topologyInfo = [])) :
    updateServers env f new =
      ({ lock := f.lock
         topologyAge := f.topologyAge
         initialServers := f.initialServers
         serverNameMap := (registerNames env (sort new) f.serverNameMap []).1
         topologyInfo := sort new
         balancer := (sort new).map env.nameId
         trace := f.trace ++
           ((set_difference (sort new) (sort f.topologyInfo)).map
                (fun s => ⟨f.lock + 1, .addObject s⟩)
             ++ [⟨f.lock + 1, .topologyUpdateServers (sort new)⟩,
                 ⟨f.lock + 1, .setServers ((sort new).map env.nameId)⟩]
             ++ (set_difference (sort f.topologyInfo) (sort new)).map
                (fun s => ⟨f.lock + 1, .clear s⟩)
             ++ [⟨f.lock + 1, .topologyUpdateServers (sort new)⟩]) },
       sort new) := by
  have ht : ((set_difference (sort f.topologyInfo) (sort new)).isEmpty
      && (sort new).isEmpty) = false := by
    rw [← Bool.not_eq_true, early_test_iff]
    exact h
  unfold updateServers
  simp only [sort_sort, acquire_topologyInfo, ht, Bool.false_eq_true, if_false]
  simp only [foldl_emit]
  simp [registerNames_snd, emit, acquire, release]

end Reconciling

section Starting

variable {A I T : Type}

/-- What one iteration of the ping loop does: it never throws, it only appends to the
trace, it calls `borrowObject` once, for the server of the iteration, and it pings
the borrowed transport if there is one. -/
theorem pingIteration_spec (env : Env A I T) (f : TcpTransportFactory A I T) (s : A) :
    (pingIteration env f s).1 = .ok () ∧
    ∃ d : List (Event A I T),
      (pingIteration env f s).2 = { f with trace := f.trace ++ d } ∧
      borrowAttempts (d.map Event.call) = [s] ∧
      pinged (d.map Event.call) = borrowed (d.map Event.call) := by
  unfold pingIteration pingTry
  cases hb : env.borrowObject f.trace s with
  | error e =>
    exact ⟨rfl, [⟨f.lock, .borrowObject s (.error e)⟩], rfl, rfl, rfl⟩
  | ok t =>
    cases hp : env.ping (f.trace ++ [⟨f.lock, .borrowObject s (.ok t)⟩]) t with
    | error e =>
      refine ⟨by simp [hp], [⟨f.lock, .borrowObject s (.ok t)⟩, ⟨f.lock, .ping t (.error e)⟩],
        by simp [hp, emit], rfl, rfl⟩
    | ok u =>
      refine ⟨by simp [hp], [⟨f.lock, .borrowObject s (.ok t)⟩, ⟨f.lock, .ping t (.ok u)⟩,
        ⟨f.lock, .returnObject s t⟩], by simp [hp, emit], rfl, rfl⟩

/-- What the ping loop does over a list of servers. -/
theorem pingLoop_spec (env : Env A I T) (l : List A) (f : TcpTransportFactory A I T) :
    (pingLoop env l f).1 = .ok () ∧
    ∃ d : List (Event A I T),
      (pingLoop env l f).2 = { f with trace := f.trace ++ d } ∧
      borrowAttempts (d.map Event.call) = l ∧
      pinged (d.map Event.call) = borrowed (d.map Event.call) := by
  induction l generalizing f with
  | nil => exact ⟨rfl, [], by simp [pingLoop], rfl, rfl⟩
  | cons s rest ih =>
    obtain ⟨h1, d₁, hd₁, ha₁, hp₁⟩ := pingIteration_spec env f s
    obtain ⟨h2, d₂, hd₂, ha₂, hp₂⟩ := ih { f with trace := f.trace ++ d₁ }
    have hstep : pingLoop env (s :: rest) f
        = pingLoop env rest { f with trace := f.trace ++ d₁ } := by
      rw [pingLoop]
      have : pingIteration env f s = (.ok (), { f with trace := f.trace ++ d₁ }) :=
        Prod.ext h1 hd₁
      rw [this]
    rw [hstep]
    refine ⟨h2, d₁ ++ d₂, by rw [hd₂]; simp, ?_, ?_⟩
    · simp only [borrowAttempts, List.map_append, List.filterMap_append] at ha₁ ha₂ ⊢
      rw [ha₁, ha₂]; rfl
    · simp only [pinged, borrowed, List.map_append, List.filterMap_append] at hp₁ hp₂ ⊢
      rw [hp₁, hp₂]

end Starting

section StartingRun

variable {A I T : Type} [DecidableEq I]

/-- The run of `start`: it returns normally, and its effect on every member. -/
theorem start_run (env : Env A I T) (f : TcpTransportFactory A I T) (conf : List A)
    (tid : Int) :
    (start env f conf tid).1 = .ok () ∧
    ∃ d : List (Event A I T),
      (start env f conf tid).2 =
        { lock := f.lock
          topologyAge := 0
          initialServers := f.initialServers ++ conf
          serverNameMap := (registerNames env (f.initialServers ++ conf) f.serverNameMap []).1
          topologyInfo := f.initialServers ++ conf
          balancer := (f.initialServers ++ conf).map env.nameId
          trace := f.trace ++ (startPrefix env f conf tid ++ d) } ∧
      borrowAttempts (d.map Event.call) = f.initialServers ++ conf ∧
      pinged (d.map Event.call) = borrowed (d.map Event.call) := by
  obtain ⟨h1, d, hd, ha, hp⟩ := pingLoop_spec env (f.initialServers ++ conf)
    { lock := f.lock + 1
      topologyAge := 0
      initialServers := f.initialServers ++ conf
      serverNameMap := (registerNames env (f.initialServers ++ conf) f.serverNameMap []).1
      topologyInfo := f.initialServers ++ conf
      balancer := (f.initialServers ++ conf).map env.nameId
      trace := f.trace ++ startPrefix env f conf tid }
  have hstart : start env f conf tid
      = ((pingLoop env (f.initialServers ++ conf)
          { lock := f.lock + 1
            topologyAge := 0
            initialServers := f.initialServers ++ conf
            serverNameMap := (registerNames env (f.initialServers ++ conf) f.serverNameMap []).1
            topologyInfo := f.initialServers ++ conf
            balancer := (f.initialServers ++ conf).map env.nameId
            trace := f.trace ++ startPrefix env f conf tid }).1,
         release (pingLoop env (f.initialServers ++ conf)
          { lock := f.lock + 1
            topologyAge := 0
            initialServers := f.initialServers ++ conf
            serverNameMap := (registerNames env (f.initialServers ++ conf) f.serverNameMap []).1
            topologyInfo := f.initialServers ++ conf
            balancer := (f.initialServers ++ conf).map env.nameId
            trace := f.trace ++ startPrefix env f conf tid }).2) := by
    unfold start createAndPreparePool pingServers
    simp only [foldl_emit]
    simp [registerNames_snd, emit, acquire, startPrefix]
  rw [hstart, h1, hd]
  exact ⟨rfl, d, by simp [release], ha, hp⟩

theorem start_serverNameMap (env : Env A I T) (f : TcpTransportFactory A I T)
    (conf : List A) (tid : Int) :
    (start env f conf tid).2.serverNameMap
      = (registerNames env (f.initialServers ++ conf) f.serverNameMap []).1 := by
  obtain ⟨_, d, hd, _, _⟩ := start_run env f conf tid
  rw [hd]

theorem start_balancer (env : Env A I T) (f : TcpTransportFactory A I T)
    (conf : List A) (tid : Int) :
    (start env f conf tid).2.balancer = (f.initialServers ++ conf).map env.nameId := by
  obtain ⟨_, d, hd, _, _⟩ := start_run env f conf tid
  rw [hd]

theorem mem_keys_registerNames_of_mem (env : Env A I T) (l : List A) (m : List (I × A))
    (k : I) (h : k ∈ keys m) : k ∈ keys (registerNames env l m []).1 := by
  rw [← find_isSome_iff] at h ⊢
  obtain ⟨a, ha⟩ := Option.isSome_iff_exists.1 h
  rw [registerNames_find_of_some env l m [] k a ha]
  rfl

end StartingRun

/-! # The claims -/

section Routing

variable {A I T : Type} [DecidableEq I]

/-- C2: `getTransport(cacheName)` throws `Exception("Server not found!")` exactly when
`balancer->nextServer()` returned an identity that is not a key of `serverNameMap`;
in that case no `borrowObject` call is made; and whenever the returned identity is a
key, the only pool call is `borrowObject` for the address the map holds for it, whose
outcome is the outcome of `getTransport`. -/
theorem getTransport_server_not_found_iff (env : Env A I T) (f : TcpTransportFactory A I T)
    (cn : CharVector) :
    ((getTransport env f cn).1 = .error (.raised "Server not found!")
        ↔ ∃ id, env.nextServer f.trace = .ok id ∧ id ∉ keys f.serverNameMap) ∧
    ((getTransport env f cn).1 = .error (.raised "Server not found!")
        → ∀ s o, Call.borrowObject s o ∉ newCalls f (getTransport env f cn).2) ∧
    (∀ id a, env.nextServer f.trace = .ok id → find f.serverNameMap id = some a →
        newCalls f (getTransport env f cn).2
          = [.nextServer (.ok id),
             .borrowObject a
               (env.borrowObject (f.trace ++ [⟨f.lock + 1, .nextServer (.ok id)⟩]) a)]
        ∧ (getTransport env f cn).1
          = lift (env.borrowObject (f.trace ++ [⟨f.lock + 1, .nextServer (.ok id)⟩]) a)) := by
  cases hn : env.nextServer f.trace with
  | error e =>
    rw [getTransport_of_error env f cn e hn]
    simp
  | ok id =>
    cases hf : find f.serverNameMap id with
    | none =>
      rw [getTransport_of_none env f cn id hn hf]
      have hk : id ∉ keys f.serverNameMap := (find_eq_none_iff _ _).1 hf
      refine ⟨by simpa using hk, ?_, ?_⟩
      · intro _ s o
        rw [newCalls_of_append f _ [⟨f.lock + 1, .nextServer (.ok id)⟩] (by simp)]
        simp
      · intro id' a h1 h2
        cases h1
        rw [hf] at h2
        cases h2
    | some a =>
      rw [getTransport_of_some env f cn id a hn hf]
      have hk : id ∈ keys f.serverNameMap := by
        rw [← find_isSome_iff, hf]; rfl
      have hfst := borrowTransportFromPool_fst env
        (release (emit (.nextServer (.ok id)) (acquire f))) a
      have hsnd := borrowTransportFromPool_snd env
        (release (emit (.nextServer (.ok id)) (acquire f))) a
      simp only [release_trace, emit_trace, acquire_trace, acquire_lock] at hfst hsnd
      have hne : lift (env.borrowObject (f.trace ++ [⟨f.lock + 1, .nextServer (.ok id)⟩]) a)
          ≠ .error (.raised "Server not found!") := by
        cases env.borrowObject (f.trace ++ [⟨f.lock + 1, .nextServer (.ok id)⟩]) a <;>
          simp [lift]
      refine ⟨?_, ?_, ?_⟩
      · rw [hfst]
        constructor
        · intro h; exact absurd h hne
        · rintro ⟨id', h1, h2⟩
          cases h1
          exact absurd hk h2
      · intro h
        rw [hfst] at h
        exact absurd h hne
      · intro id' a' h1 h2
        cases h1
        rw [hf] at h2
        cases h2
        refine ⟨?_, hfst⟩
        rw [newCalls_of_append f _
          [⟨f.lock + 1, .nextServer (.ok id)⟩,
           ⟨f.lock, .borrowObject a
             (env.borrowObject (f.trace ++ [⟨f.lock + 1, .nextServer (.ok id)⟩]) a)⟩]
          (by rw [hsnd]; simp)]
        simp

/-- C1: `getTransport(key, cacheName)` asks `getHashAwareServer(key, cacheName)`; when the
answer is not empty the only pool call is `borrowObject` for that answer and its outcome
is returned; when the answer is empty the outcome is the outcome of
`getTransport(cacheName)` run at that point (the balancer's next server looked up in
the identity map, with the same failures), and so are its calls. -/
theorem getTransportKey_routes (env : Env A I T) (f : TcpTransportFactory A I T)
    (key cn : CharVector) :
    (env.isEmpty (env.getHashAwareServer f.trace key cn) = false →
      newCalls f (getTransportKey env f key cn).2
        = [.getHashAwareServer key cn (env.getHashAwareServer f.trace key cn),
           .borrowObject (env.getHashAwareServer f.trace key cn)
             (env.borrowObject
               (f.trace ++ [⟨f.lock + 1,
                 .getHashAwareServer key cn (env.getHashAwareServer f.trace key cn)⟩])
               (env.getHashAwareServer f.trace key cn))]
      ∧ (getTransportKey env f key cn).1
        = lift (env.borrowObject
               (f.trace ++ [⟨f.lock + 1,
                 .getHashAwareServer key cn (env.getHashAwareServer f.trace key cn)⟩])
               (env.getHashAwareServer f.trace key cn))) ∧
    (env.isEmpty (env.getHashAwareServer f.trace key cn) = true →
      (getTransportKey env f key cn).1
        = (getTransport env
            (emit (.getHashAwareServer key cn (env.getHashAwareServer f.trace key cn))
              (acquire f)) cn).1
      ∧ (getTransportKey env f key cn).2
        = release (getTransport env
            (emit (.getHashAwareServer key cn (env.getHashAwareServer f.trace key cn))
              (acquire f)) cn).2
      ∧ (∀ id, env.nextServer
            (f.trace ++ [⟨f.lock + 1,
              .getHashAwareServer key cn (env.getHashAwareServer f.trace key cn)⟩]) = .ok id →
          (find f.serverNameMap id = none →
            (getTransportKey env f key cn).1 = .error (.raised "Server not found!")) ∧
          (∀ a, find f.serverNameMap id = some a →
            (getTransportKey env f key cn).1
              = lift (env.borrowObject
                  (f.trace ++ [⟨f.lock + 1,
                      .getHashAwareServer key cn (env.getHashAwareServer f.trace key cn)⟩,
                    ⟨f.lock + 2, .nextServer (.ok id)⟩]) a)))) := by
  constructor
  · intro hE
    have hfst := borrowTransportFromPool_fst env
      (emit (.getHashAwareServer key cn (env.getHashAwareServer f.trace key cn)) (acquire f))
      (env.getHashAwareServer f.trace key cn)
    have hsnd := borrowTransportFromPool_snd env
      (emit (.getHashAwareServer key cn (env.getHashAwareServer f.trace key cn)) (acquire f))
      (env.getHashAwareServer f.trace key cn)
    simp only [emit_trace, acquire_trace, acquire_lock] at hfst hsnd
    constructor
    · rw [newCalls_of_append f _
        [⟨f.lock + 1, .getHashAwareServer key cn (env.getHashAwareServer f.trace key cn)⟩,
         ⟨f.lock + 1, .borrowObject (env.getHashAwareServer f.trace key cn)
             (env.borrowObject
               (f.trace ++ [⟨f.lock + 1,
                 .getHashAwareServer key cn (env.getHashAwareServer f.trace key cn)⟩])
               (env.getHashAwareServer f.trace key cn))⟩]
        (by simp [getTransportKey, hE, hsnd])]
      simp
    · simp [getTransportKey, hE, hfst]
  · intro hE
    refine ⟨by simp [getTransportKey, hE], by simp [getTransportKey, hE], ?_⟩
    intro id hn
    have hn' : env.nextServer
        (emit (.getHashAwareServer key cn (env.getHashAwareServer f.trace key cn))
          (acquire f)).trace = .ok id := by
      simpa using hn
    constructor
    · intro hf
      have := getTransport_of_none env
        (emit (.getHashAwareServer key cn (env.getHashAwareServer f.trace key cn))
          (acquire f)) cn id hn' (by simpa using hf)
      simp [getTransportKey, hE, this]
    · intro a hf
      have h1 := getTransport_of_some env
        (emit (.getHashAwareServer key cn (env.getHashAwareServer f.trace key cn))
          (acquire f)) cn id a hn' (by simpa using hf)
      have hfst := borrowTransportFromPool_fst env
        (release (emit (.nextServer (.ok id))
          (acquire (emit (.getHashAwareServer key cn (env.getHashAwareServer f.trace key cn))
            (acquire f))))) a
      simp only [release_trace, emit_trace, acquire_trace, acquire_lock, emit_lock,
        List.append_assoc, List.singleton_append] at hfst
      simp [getTransportKey, hE, h1, hfst]

/-- Instance of `getTransport_server_not_found_iff`: the factory knows server 2 only and
the balancer answers identity 1. -/
theorem getTransport_server_not_found_iff_witness :
    (getTransport healthy (started healthy [2]) []).1 = .error (.raised "Server not found!") ∧
    ∀ s o, Call.borrowObject s o
      ∉ newCalls (started healthy [2]) (getTransport healthy (started healthy [2]) []).2 :=
  ⟨by decide, (getTransport_server_not_found_iff healthy (started healthy [2]) []).2.1 (by decide)⟩

/-- Instance of `getTransportKey_routes`: with every key owned by server 2 the transport
of server 2 is handed out; with no hash-aware cache, the transport of the balancer's
server 1. -/
theorem getTransportKey_routes_witness :
    hashAware.isEmpty
      (hashAware.getHashAwareServer (started hashAware [1, 2]).trace [7] []) = false ∧
    (getTransportKey hashAware (started hashAware [1, 2]) [7] []).1 = .ok 102 ∧
    (getTransportKey healthy (started healthy [1, 2]) [7] []).1 = .ok 101 :=
  ⟨by decide,
   (((getTransportKey_routes hashAware (started hashAware [1, 2]) [7] []).1
      (by decide)).2).trans (by decide),
   by decide⟩

end Routing

section Reconciliation

variable {A I T : Type} [LinearOrder A] [DecidableEq I]

theorem newCalls_updateServers (env : Env A I T) (f : TcpTransportFactory A I T)
    (new : List A) (h : ¬ (new = [] ∧ f.topologyInfo = [])) :
    newCalls f (updateServers env f new).1
      = (set_difference (sort new) (sort f.topologyInfo)).map .addObject
        ++ [.topologyUpdateServers (sort new), .setServers ((sort new).map env.nameId)]
        ++ (set_difference (sort f.topologyInfo) (sort new)).map .clear
        ++ [.topologyUpdateServers (sort new)] := by
  rw [updateServers_run env f new h]
  simp [newCalls, Function.comp_def]

theorem addObjectCalls_updateServers (env : Env A I T) (f : TcpTransportFactory A I T)
    (new : List A) (h : ¬ (new = [] ∧ f.topologyInfo = [])) :
    addObjectCalls (newCalls f (updateServers env f new).1)
      = set_difference (sort new) (sort f.topologyInfo) := by
  rw [newCalls_updateServers env f new h]
  simp [addObjectCalls, List.filterMap_append, List.filterMap_map, Function.comp_def]

theorem clearCalls_updateServers (env : Env A I T) (f : TcpTransportFactory A I T)
    (new : List A) (h : ¬ (new = [] ∧ f.topologyInfo = [])) :
    clearCalls (newCalls f (updateServers env f new).1)
      = set_difference (sort f.topologyInfo) (sort new) := by
  rw [newCalls_updateServers env f new h]
  simp [clearCalls, List.filterMap_append, List.filterMap_map, Function.comp_def]

theorem count_difference_sorted (s : A) (xs ys : List A) :
    (set_difference (sort xs) (sort ys)).count s = xs.count s - ys.count s := by
  rw [count_set_difference s _ _ (sort_sorted xs) (sort_sorted ys), count_sort, count_sort]

theorem mem_difference_of_nodup (s : A) (xs ys : List A) (hx : xs.Nodup) :
    s ∈ set_difference (sort xs) (sort ys) ↔ s ∈ xs ∧ s ∉ ys := by
  rw [← List.count_pos_iff, count_difference_sorted, ← List.count_pos_iff,
    ← List.count_eq_zero]
  have := List.nodup_iff_count_le_one.1 hx s
  omega

/-- C3, amended: for every known list `old` and every non-empty `new`, `addObject` is
called for a server once per occurrence in `new` beyond its occurrences in `old`, and
`clear` once per occurrence in `old` beyond those in `new`; hence, when `new` has no
repeated entry, `addObject` is called exactly for the servers in `new` but not in
`old`, and when `old` has none, `clear` exactly for the servers in `old` but not in
`new`.  On return the topology's list and the caller's vector are `new` in ascending
order and the balancer's list is the identities of that list. -/
theorem updateServers_reconciles (env : Env A I T) (f : TcpTransportFactory A I T)
    (new : List A) (h : new ≠ []) :
    (∀ s, (addObjectCalls (newCalls f (updateServers env f new).1)).count s
        = new.count s - f.topologyInfo.count s) ∧
    (∀ s, (clearCalls (newCalls f (updateServers env f new).1)).count s
        = f.topologyInfo.count s - new.count s) ∧
    (new.Nodup → ∀ s, s ∈ addObjectCalls (newCalls f (updateServers env f new).1)
        ↔ s ∈ new ∧ s ∉ f.topologyInfo) ∧
    (f.topologyInfo.Nodup → ∀ s, s ∈ clearCalls (newCalls f (updateServers env f new).1)
        ↔ s ∈ f.topologyInfo ∧ s ∉ new) ∧
    (updateServers env f new).1.topologyInfo = sort new ∧
    (updateServers env f new).1.balancer = (sort new).map env.nameId ∧
    (updateServers env f new).2 = sort new ∧
    (sort new).Perm new := by
  have hrun : ¬ (new = [] ∧ f.topologyInfo = []) := fun hh => h hh.1
  rw [addObjectCalls_updateServers env f new hrun, clearCalls_updateServers env f new hrun,
    updateServers_run env f new hrun]
  refine ⟨fun s => count_difference_sorted s _ _, fun s => count_difference_sorted s _ _,
    fun hnd s => mem_difference_of_nodup s _ _ hnd,
    fun hnd s => mem_difference_of_nodup s _ _ hnd, rfl, rfl, rfl, sort_perm new⟩

/-- C3 as stated fails: after `start` with the single server `1`, `updateServers([1, 1])`
calls `addObject(1)` although server `1` is in the known list. -/
theorem updateServers_adds_known_server :
    ¬ (∀ s : Nat,
        s ∈ addObjectCalls
              (newCalls (started healthy [1]) (updateServers healthy (started healthy [1]) [1, 1]).1)
          ↔ s ∈ [1, 1] ∧ s ∉ (started healthy [1]).topologyInfo) := by
  intro hall
  have h1 := (hall 1).1 (by decide)
  revert h1
  decide

/-- Instance of `updateServers_reconciles`: known servers 1 and 2, new list [3, 2]. -/
theorem updateServers_reconciles_witness :
    ([3, 2] : List Nat) ≠ [] ∧
    (updateServers healthy (started healthy [1, 2]) [3, 2]).1.topologyInfo = [2, 3] ∧
    addObjectCalls
      (newCalls (started healthy [1, 2]) (updateServers healthy (started healthy [1, 2]) [3, 2]).1)
        = [3] ∧
    clearCalls
      (newCalls (started healthy [1, 2]) (updateServers healthy (started healthy [1, 2]) [3, 2]).1)
        = [1] :=
  ⟨by decide,
   (updateServers_reconciles healthy (started healthy [1, 2]) [3, 2] (by decide)).2.2.2.2.1,
   by decide, by decide⟩

/-- C10: `updateServers(new)` leaves the factory as it was (no call logged, identity
map, topology list and balancer list untouched) if and only if `new` is empty and the
known server list is empty; and when `new` is non-empty and holds exactly the known
servers (the same entries up to order; for lists without repeated entries: the same
servers), so that nothing is added and nothing removed, its calls are
`topologyInfo->updateServers`, `balancer->setServers`, `topologyInfo->updateServers`
and nothing else: no `addObject`, no `clear`. -/
theorem updateServers_early_return_iff (env : Env A I T) (f : TcpTransportFactory A I T)
    (new : List A) :
    ((updateServers env f new).1 = f ↔ new = [] ∧ f.topologyInfo = []) ∧
    (newCalls f (updateServers env f new).1 = [] ↔ new = [] ∧ f.topologyInfo = []) ∧
    (new ≠ [] → new.Perm f.topologyInfo →
      newCalls f (updateServers env f new).1
        = [.topologyUpdateServers (sort new), .setServers ((sort new).map env.nameId),
           .topologyUpdateServers (sort new)]) ∧
    (new ≠ [] → new.Nodup → f.topologyInfo.Nodup → (∀ s, s ∈ new ↔ s ∈ f.topologyInfo) →
      newCalls f (updateServers env f new).1
        = [.topologyUpdateServers (sort new), .setServers ((sort new).map env.nameId),
           .topologyUpdateServers (sort new)]) := by
  have hcalls : newCalls f (updateServers env f new).1 = [] ↔ new = [] ∧ f.topologyInfo = [] := by
    constructor
    · intro hc
      by_contra hrun
      rw [newCalls_updateServers env f new hrun] at hc
      simp at hc
    · intro he
      rw [updateServers_early env f new he]
      simp [newCalls]
  have hsame : new ≠ [] → new.Perm f.topologyInfo →
      newCalls f (updateServers env f new).1
        = [.topologyUpdateServers (sort new), .setServers ((sort new).map env.nameId),
           .topologyUpdateServers (sort new)] := by
    intro hne hperm
    have hrun : ¬ (new = [] ∧ f.topologyInfo = []) := fun hh => hne hh.1
    have hsort : sort new = sort f.topologyInfo :=
      List.eq_of_perm_of_sorted
        (((sort_perm new).trans hperm).trans (sort_perm f.topologyInfo).symm)
        (sort_sorted new) (sort_sorted f.topologyInfo)
    rw [newCalls_updateServers env f new hrun, ← hsort, set_difference_self]
    simp
  refine ⟨?_, hcalls, hsame, ?_⟩
  · constructor
    · intro he
      apply hcalls.1
      rw [he]
      simp [newCalls]
    · intro he
      rw [updateServers_early env f new he]
  · intro hne hn ho hset
    exact hsame hne ((List.perm_ext_iff_of_nodup hn ho).2 hset)

/-- Instance of `updateServers_early_return_iff`: the known servers [1, 2] pushed again
as [2, 1]. -/
theorem updateServers_early_return_iff_witness :
    ([2, 1] : List Nat) ≠ [] ∧ ([2, 1] : List Nat).Perm (started healthy [1, 2]).topologyInfo ∧
    newCalls (started healthy [1, 2]) (updateServers healthy (started healthy [1, 2]) [2, 1]).1
      = [.topologyUpdateServers [1, 2], .setServers [1, 2], .topologyUpdateServers [1, 2]] :=
  ⟨by decide, by decide,
   (updateServers_early_return_iff healthy (started healthy [1, 2]) [2, 1]).2.2.1
     (by decide) (by decide)⟩

/-- C4: in a run of `updateServers` that does not return early there is a position
`i₀` at which `topologyInfo->updateServers` is called for the first time, directly
followed by the first `balancer->setServers`; every `addObject` call comes before
position `i₀`, and every `clear` call comes after position `i₀ + 1`. -/
theorem updateServers_effect_order (env : Env A I T) (f : TcpTransportFactory A I T)
    (new : List A) (h : ¬ (new = [] ∧ f.topologyInfo = [])) :
    ∃ i₀ : Nat,
      (newCalls f (updateServers env f new).1)[i₀]?
        = some (.topologyUpdateServers (sort new)) ∧
      (newCalls f (updateServers env f new).1)[i₀ + 1]?
        = some (.setServers ((sort new).map env.nameId)) ∧
      (∀ j l, j < i₀ →
        (newCalls f (updateServers env f new).1)[j]? ≠ some (.topologyUpdateServers l)) ∧
      (∀ j l, j < i₀ + 1 →
        (newCalls f (updateServers env f new).1)[j]? ≠ some (.setServers l)) ∧
      (∀ i s, (newCalls f (updateServers env f new).1)[i]? = some (.addObject s) → i < i₀) ∧
      (∀ i s, (newCalls f (updateServers env f new).1)[i]? = some (.clear s) → i₀ + 1 < i) := by
  rw [newCalls_updateServers env f new h]
  generalize set_difference (sort new) (sort f.topologyInfo) = added
  generalize set_difference (sort f.topologyInfo) (sort new) = failed
  obtain ⟨cs, hcs⟩ : ∃ cs : List (Call A I T), cs = added.map Call.addObject
      ++ [.topologyUpdateServers (sort new), .setServers ((sort new).map env.nameId)]
      ++ failed.map Call.clear ++ [.topologyUpdateServers (sort new)] := ⟨_, rfl⟩
  rw [← hcs]
  have hlow : ∀ j, j < added.length → ∀ c, cs[j]? = some c →
      ∃ s, c = (.addObject s : Call A I T) := by
    intro j hj c hc
    rw [hcs, List.append_assoc, List.append_assoc,
      List.getElem?_append_left (by simpa using hj)] at hc
    rw [List.getElem?_map] at hc
    cases hg : added[j]? with
    | none => rw [hg] at hc; cases hc
    | some s => rw [hg] at hc; exact ⟨s, by simpa using hc.symm⟩
  have hhigh : ∀ j, added.length + 2 ≤ j → ∀ c, cs[j]? = some c →
      (∃ s, c = (.clear s : Call A I T)) ∨ c = .topologyUpdateServers (sort new) := by
    intro j hj c hc
    rw [hcs, List.append_assoc,
      List.getElem?_append_right (by simpa using hj)] at hc
    have hmem := List.getElem?_mem hc
    rcases List.mem_append.1 hmem with hm | hm
    · left
      obtain ⟨s, _, hs⟩ := List.mem_map.1 hm
      exact ⟨s, hs.symm⟩
    · right
      simpa using hm
  have h0 : cs[added.length]? = some (.topologyUpdateServers (sort new)) := by
    rw [hcs, List.append_assoc, List.append_assoc, List.getElem?_append_right (by simp)]
    simp
  have h1 : cs[added.length + 1]? = some (.setServers ((sort new).map env.nameId)) := by
    rw [hcs, List.append_assoc, List.append_assoc, List.getElem?_append_right (by simp)]
    simp
  refine ⟨added.length, h0, h1, ?_, ?_, ?_, ?_⟩
  · intro j l hj hc
    obtain ⟨s, hs⟩ := hlow j hj _ hc
    cases hs
  · intro j l hj hc
    rcases Nat.lt_succ_iff_lt_or_eq.1 hj with hlt | heq
    · obtain ⟨s, hs⟩ := hlow j hlt _ hc
      cases hs
    · subst heq
      rw [h0] at hc
      cases hc
  · intro i s hc
    by_contra hge
    rcases Nat.lt_or_ge i (added.length + 2) with hlt | hge2
    · have hi : i = added.length ∨ i = added.length + 1 := by omega
      rcases hi with hi | hi
      · subst hi; rw [h0] at hc; cases hc
      · subst hi; rw [h1] at hc; cases hc
    · rcases hhigh i hge2 _ hc with ⟨s', hs⟩ | hs <;> cases hs
  · intro i s hc
    by_contra hle
    rcases Nat.lt_or_ge i added.length with hlt | hge
    · obtain ⟨s', hs⟩ := hlow i hlt _ hc
      cases hs
    · have hi : i = added.length ∨ i = added.length + 1 := by omega
      rcases hi with hi | hi
      · subst hi; rw [h0] at hc; cases hc
      · subst hi; rw [h1] at hc; cases hc

/-- Instance of `updateServers_effect_order`: known servers 1 and 2, new list [3, 2]. -/
theorem updateServers_effect_order_witness :
    ¬ (([3, 2] : List Nat) = [] ∧ (started healthy [1, 2]).topologyInfo = []) ∧
    newCalls (started healthy [1, 2]) (updateServers healthy (started healthy [1, 2]) [3, 2]).1
      = [.addObject 3, .topologyUpdateServers [2, 3], .setServers [2, 3], .clear 1,
         .topologyUpdateServers [2, 3]] ∧
    ∃ i₀ : Nat,
      (newCalls (started healthy [1, 2])
        (updateServers healthy (started healthy [1, 2]) [3, 2]).1)[i₀]?
        = some (.topologyUpdateServers (sort [3, 2])) :=
  ⟨by decide, by decide,
   (updateServers_effect_order healthy (started healthy [1, 2]) [3, 2] (by decide)).imp
     fun _ hi => hi.1⟩

end Reconciliation

section Startup

variable {A I T : Type} [DecidableEq I]

/-- C5: whatever `borrowObject` and `ping` do for whichever servers, `start` returns
normally with the mutex released; `pingServers` has called `borrowObject` once per
entry of the server list, in order (for a factory as constructed that list is the
configured servers), and `ping` on every transport it obtained; and the identity of
every configured server is a key of the identity map and an entry of the balancer's
list. -/
theorem start_survives_ping_failures (env : Env A I T) (f : TcpTransportFactory A I T)
    (conf : List A) (tid : Int) :
    (start env f conf tid).1 = .ok () ∧
    (start env f conf tid).2.lock = f.lock ∧
    borrowAttempts (newCalls f (start env f conf tid).2) = f.initialServers ++ conf ∧
    (f.initialServers = [] → borrowAttempts (newCalls f (start env f conf tid).2) = conf) ∧
    pinged (newCalls f (start env f conf tid).2) = borrowed (newCalls f (start env f conf tid).2) ∧
    (∀ s ∈ conf, env.nameId s ∈ keys (start env f conf tid).2.serverNameMap
      ∧ env.nameId s ∈ (start env f conf tid).2.balancer) := by
  obtain ⟨hok, d, hd, ha, hp⟩ := start_run env f conf tid
  have hcalls : newCalls f (start env f conf tid).2
      = (startPrefix env f conf tid ++ d).map Event.call :=
    newCalls_of_append f _ _ (by rw [hd])
  have hpre_b : borrowAttempts ((startPrefix env f conf tid).map Event.call) = [] := by
    simp [borrowAttempts, startPrefix, List.filterMap_append, List.filterMap_map,
      Function.comp_def]
  have hpre_p : pinged ((startPrefix env f conf tid).map Event.call) = [] := by
    simp [pinged, startPrefix, List.filterMap_append, List.filterMap_map, Function.comp_def]
  have hpre_o : borrowed ((startPrefix env f conf tid).map Event.call) = [] := by
    simp [borrowed, startPrefix, List.filterMap_append, List.filterMap_map, Function.comp_def]
  have hatt : borrowAttempts (newCalls f (start env f conf tid).2) = f.initialServers ++ conf := by
    rw [hcalls, List.map_append]
    unfold borrowAttempts at hpre_b ha ⊢
    rw [List.filterMap_append, hpre_b, ha, List.nil_append]
  refine ⟨hok, by rw [hd], hatt, ?_, ?_, ?_⟩
  · intro hnil
    rw [hatt, hnil, List.nil_append]
  · rw [hcalls, List.map_append]
    unfold pinged at hpre_p
    unfold borrowed at hpre_o
    unfold pinged borrowed at hp ⊢
    rw [List.filterMap_append, List.filterMap_append, hpre_p, hpre_o, hp]
  · intro s hs
    rw [hd]
    constructor
    · exact registerNames_mem_keys env _ _ _ s (List.mem_append_right _ hs)
    · exact List.mem_map.2 ⟨s, List.mem_append_right _ hs, rfl⟩

/-- Instance of `start_survives_ping_failures`: four configured servers, of which server 2
refuses the connection and the ping of server 3 throws. -/
theorem start_survives_ping_failures_witness :
    (fresh : TcpTransportFactory Nat Nat Nat).initialServers = [] ∧
    borrowAttempts (newCalls fresh (start flaky fresh [1, 2, 3, 4] 0).2) = [1, 2, 3, 4] ∧
    pinged (newCalls fresh (start flaky fresh [1, 2, 3, 4] 0).2) = [101, 103, 104] ∧
    (start flaky fresh [1, 2, 3, 4] 0).2.balancer = [1, 2, 3, 4] :=
  ⟨rfl, (start_survives_ping_failures flaky fresh [1, 2, 3, 4] 0).2.2.2.1 rfl,
   by decide, by decide⟩

/-- C8 fails on the code: with one configured server whose borrow succeeds (transport
103) and whose ping throws, `start` returns normally, the calls of `pingServers` are
`borrowObject` and `ping` only, and transport 103 is still checked out: it was neither
returned nor invalidated. -/
theorem pingServers_leaves_transport_checked_out :
    (start flaky fresh [3] 0).1 = .ok () ∧
    (newCalls fresh (start flaky fresh [3] 0).2).drop 6
      = [.borrowObject 3 (.ok 103), .ping 103 (.error "timeout")] ∧
    checkedOut (newCalls fresh (start flaky fresh [3] 0).2) = [103] ∧
    (∀ s, Call.returnObject s 103 ∉ newCalls fresh (start flaky fresh [3] 0).2) ∧
    (∀ s, Call.invalidateObject s 103 ∉ newCalls fresh (start flaky fresh [3] 0).2) := by
  refine ⟨by decide, by decide, by decide, ?_, ?_⟩
  · intro s hs
    have h : newCalls fresh (start flaky fresh [3] 0).2
        = [.newBalancer, .newTopologyInfo 0 [3], .newTransportObjectFactory,
           .newConnectionPool, .preparePool 3, .setServers [3],
           .borrowObject 3 (.ok 103), .ping 103 (.error "timeout")] := by decide
    rw [h] at hs
    simp at hs
  · intro s hs
    have h : newCalls fresh (start flaky fresh [3] 0).2
        = [.newBalancer, .newTopologyInfo 0 [3], .newTransportObjectFactory,
           .newConnectionPool, .preparePool 3, .setServers [3],
           .borrowObject 3 (.ok 103), .ping 103 (.error "timeout")] := by decide
    rw [h] at hs
    simp at hs

end Startup

section IdentityMap

variable {A I T : Type} [LinearOrder A] [DecidableEq I]

theorem lift_ne_raised (r : Except String T) (what : String) :
    lift r ≠ .error (.raised what) := by
  cases r <;> simp [lift]

theorem updateServers_serverNameMap (env : Env A I T) (f : TcpTransportFactory A I T)
    (new : List A) (h : ¬ (new = [] ∧ f.topologyInfo = [])) :
    (updateServers env f new).1.serverNameMap
      = (registerNames env (sort new) f.serverNameMap []).1 := by
  rw [updateServers_run env f new h]

/-- C9: `start` establishes, and every `updateServers` call keeps, that every identity
in the list last given to `balancer->setServers` is a key of `serverNameMap`; neither
function removes a key; and under that invariant, when `nextServer()` returns an
identity of the balancer's list, `getTransport(cacheName)` does not throw
"Server not found!". -/
theorem balancer_identities_known (env : Env A I T) (f : TcpTransportFactory A I T)
    (conf new : List A) (tid : Int) (cn : CharVector) :
    BalancerKnown (start env f conf tid).2 ∧
    (BalancerKnown f → BalancerKnown (updateServers env f new).1) ∧
    (∀ k ∈ keys f.serverNameMap, k ∈ keys (start env f conf tid).2.serverNameMap
      ∧ k ∈ keys (updateServers env f new).1.serverNameMap) ∧
    (BalancerKnown f → ∀ id, env.nextServer f.trace = .ok id → id ∈ f.balancer →
      (getTransport env f cn).1 ≠ .error (.raised "Server not found!")) := by
  refine ⟨?_, ?_, ?_, ?_⟩
  · intro id hid
    rw [start_balancer] at hid
    rw [start_serverNameMap]
    obtain ⟨s, hs, rfl⟩ := List.mem_map.1 hid
    exact registerNames_mem_keys env _ _ _ s hs
  · intro hinv
    by_cases hrun : new = [] ∧ f.topologyInfo = []
    · rw [updateServers_early env f new hrun]
      exact hinv
    · intro id hid
      rw [updateServers_run env f new hrun] at hid ⊢
      obtain ⟨s, hs, rfl⟩ := List.mem_map.1 hid
      exact registerNames_mem_keys env _ _ _ s hs
  · intro k hk
    constructor
    · rw [start_serverNameMap]
      exact mem_keys_registerNames_of_mem env _ _ _ hk
    · by_cases hrun : new = [] ∧ f.topologyInfo = []
      · rw [updateServers_early env f new hrun]
        exact hk
      · rw [updateServers_serverNameMap env f new hrun]
        exact mem_keys_registerNames_of_mem env _ _ _ hk
  · intro hinv id hn hid
    have hk := hinv id hid
    rw [← find_isSome_iff] at hk
    obtain ⟨a, ha⟩ := Option.isSome_iff_exists.1 hk
    rw [getTransport_of_some env f cn id a hn ha, borrowTransportFromPool_fst]
    exact lift_ne_raised _ _

/-- Instance of `balancer_identities_known`: after `start` with servers 1 and 2 the
balancer answers 1 and `getTransport` hands out transport 101. -/
theorem balancer_identities_known_witness :
    BalancerKnown (started healthy [1, 2]) ∧
    healthy.nextServer (started healthy [1, 2]).trace = .ok 1 ∧
    1 ∈ (started healthy [1, 2]).balancer ∧
    (getTransport healthy (started healthy [1, 2]) []).1 ≠ .error (.raised "Server not found!") ∧
    (getTransport healthy (started healthy [1, 2]) []).1 = .ok 101 :=
  ⟨(balancer_identities_known healthy fresh [1, 2] [] 0 []).1, rfl, by decide,
   (balancer_identities_known healthy (started healthy [1, 2]) [] [] 0 []).2.2.2
     (balancer_identities_known healthy fresh [1, 2] [] 0 []).1 1 rfl (by decide),
   by decide⟩

end IdentityMap

section Locking

variable {A I T : Type}

/-- C6 fails on the code for `clearHashFunction`: both forms of `updateHashFunction`
call `updateTopology` with the mutex held once more than on entry, but
`clearHashFunction` calls `consistentHashErase` at the lock depth of its caller; called
on a factory whose mutex is free, it mutates `TopologyInfo` with the lock not held. -/
theorem clearHashFunction_without_lock :
    (∀ (f : TcpTransportFactory A I T) s2h nko hfv hs cn,
      newEvents f (updateHashFunctionLegacy f s2h nko hfv hs cn)
        = [⟨f.lock + 1, .updateTopologyLegacy s2h nko hfv hs cn⟩]) ∧
    (∀ (f : TcpTransportFactory A I T) so ns hfv cn tid,
      newEvents f (updateHashFunction f so ns hfv cn tid)
        = [⟨f.lock + 1, .updateTopology so ns hfv cn tid⟩]) ∧
    (∀ (f : TcpTransportFactory A I T) cn,
      newEvents f (clearHashFunction f cn) = [⟨f.lock, .consistentHashErase cn⟩]) ∧
    newEvents (started healthy [1, 2]) (clearHashFunction (started healthy [1, 2]) [100])
      = [⟨0, .consistentHashErase [100]⟩] := by
  refine ⟨?_, ?_, ?_, by decide⟩
  · intro f s2h nko hfv hs cn
    exact newEvents_of_append f _ _ rfl
  · intro f so ns hfv cn tid
    exact newEvents_of_append f _ _ rfl
  · intro f cn
    exact newEvents_of_append f _ _ rfl

end Locking

end HotRod
